import Mathlib

/-!
Verification development for the snake game in snake.py.

The game state machine is embedded shallowly:
* pixel coordinates are integers, Python's percent operator on a positive
  modulus agrees with Int.emod;
* the pygame event queue is modelled as the list of arrow-key directions
  delivered to handle_keys during one frame;
* random.randint pairs are modelled as an explicit stream of grid samples
  threaded into every relocation of the apple;
* base_speed starts at the integer 5 and then accumulates 0.5 increments,
  modelled exactly as a rational number.
-/

/-! Game constants, snake.py lines 10-21. -/

def SCREEN_WIDTH : Int := 640

def SCREEN_HEIGHT : Int := 480

def GRID_SIZE : Int := 20

def GRID_WIDTH : Int := SCREEN_WIDTH / GRID_SIZE

def GRID_HEIGHT : Int := SCREEN_HEIGHT / GRID_SIZE

def UP : Int × Int := (0, -1)

def DOWN : Int × Int := (0, 1)

def LEFT : Int × Int := (-1, 0)

def RIGHT : Int × Int := (1, 0)

/-- Apple.randomize_position, lines 63-67: the two random.randint results
gx in [0, GRID_WIDTH - 1] and gy in [0, GRID_HEIGHT - 1] are passed in
explicitly; the position is the sampled grid cell scaled to pixels. -/
def randomize_position (gx gy : Int) : Int × Int :=
  (gx * GRID_SIZE, gy * GRID_SIZE)

/-- Mutable state of the Snake object: its fields as assigned in
Snake.reset (lines 89-97) and updated by the methods below. -/
structure Snake where
  length : Nat
  positions : List (Int × Int)
  direction : Int × Int
  next_direction : Option (Int × Int)
  last : Option (Int × Int)
deriving DecidableEq

/-- Snake.reset, lines 89-97: single segment at the board center,
direction RIGHT, no pending direction. -/
def Snake.reset : Snake :=
  { length := 1
  , positions := [(SCREEN_WIDTH / 2 / GRID_SIZE * GRID_SIZE,
                   SCREEN_HEIGHT / 2 / GRID_SIZE * GRID_SIZE)]
  , direction := RIGHT
  , next_direction := none
  , last := none }

/-- Snake.get_head_position, lines 99-105: positions[0].  The body is never
empty in any state the program constructs; the default value stands in for
the IndexError Python would raise on an empty list. -/
def Snake.get_head_position (s : Snake) : Int × Int :=
  s.positions.headD (0, 0)

/-- Snake.update_direction, lines 107-117: a pending direction is accepted
unless its componentwise negation equals the current direction, and is
cleared in both cases. -/
def Snake.update_direction (s : Snake) : Snake :=
  match s.next_direction with
  | none => s
  | some nd =>
      if (nd.1 * -1, nd.2 * -1) ≠ s.direction then
        { s with direction := nd, next_direction := none }
      else
        { s with next_direction := none }

/-- The new head cell computed inside Snake.move, lines 122-127: one
GRID_SIZE step in the current direction, wrapped with Python's percent
operator on the screen dimensions. -/
def Snake.new_head (s : Snake) : Int × Int :=
  ((s.get_head_position.1 + s.direction.1 * GRID_SIZE) % SCREEN_WIDTH,
   (s.get_head_position.2 + s.direction.2 * GRID_SIZE) % SCREEN_HEIGHT)

/-- Snake.move, lines 119-136.  The last field records the old tail
(assigned before the collision check; a collision then calls reset, which
overwrites it with none).  The collision check is new_head in
positions[:-1], i.e. against the body with the final element dropped.
Otherwise the head is prepended and, when the body is now longer than the
target length, the final element is popped. -/
def Snake.move (s : Snake) : Snake :=
  if s.new_head ∈ s.positions.dropLast then
    Snake.reset
  else
    { s with
      last := s.positions.getLast?
      positions :=
        if s.length < (s.new_head :: s.positions).length then
          (s.new_head :: s.positions).dropLast
        else
          s.new_head :: s.positions }

/-- The statement snake.length += 1 in the main loop, line 192, performed
when the head lands on the apple. -/
def Snake.grow (s : Snake) : Snake :=
  { s with length := s.length + 1 }

/-- handle_keys, lines 154-172: each arrow-key KEYDOWN event in the frame
overwrites next_direction in order, so only the last one is retained. -/
def handle_keys (s : Snake) (events : List (Int × Int)) : Snake :=
  events.foldl (fun t d => { t with next_direction := some d }) s

/-- The relocation loop of the main loop, lines 193-196: randomize once,
then keep resampling while the position lies on the body.  The stream of
random grid samples is finite here; when it runs out the previous apple
position is kept, which never happens on a run whose stream contains an
off-body sample. -/
def relocate (samples : List (Int × Int)) (body : List (Int × Int))
    (fallback : Int × Int) : Int × Int :=
  match samples with
  | [] => fallback
  | q :: rest =>
      if randomize_position q.1 q.2 ∈ body then relocate rest body fallback
      else randomize_position q.1 q.2

/-- State owned by one run of main, lines 175-205: the snake, the apple
position and the float base_speed (exact as a rational). -/
structure GameState where
  snake : Snake
  apple : Int × Int
  base_speed : ℚ
deriving DecidableEq

/-- The three snake mutations of one loop iteration, lines 186-188:
handle_keys, update_direction, move. -/
def step_snake (s : Snake) (events : List (Int × Int)) : Snake :=
  ((handle_keys s events).update_direction).move

/-- One iteration of the while loop of main, lines 185-205, stripped of
drawing: move the snake, then, if the head sits on the apple, grow,
relocate the apple off the body and raise the speed by 0.5 (the guard
length percent 1 == 0 is kept verbatim; it is always true). -/
def tick (g : GameState) (events : List (Int × Int))
    (samples : List (Int × Int)) : GameState :=
  let s := step_snake g.snake events
  if s.get_head_position = g.apple then
    let s2 := s.grow
    { snake := s2
    , apple := relocate samples s2.positions g.apple
    , base_speed :=
        if s2.length % 1 = 0 then g.base_speed + 0.5 else g.base_speed }
  else
    { snake := s, apple := g.apple, base_speed := g.base_speed }

/-- Game start, lines 181-183: Snake() runs reset; Apple() randomizes its
position with no exclusion check; base_speed = 5.  The initial random grid
sample is passed in. -/
def initial (g0 : Int × Int) : GameState :=
  { snake := Snake.reset
  , apple := randomize_position g0.1 g0.2
  , base_speed := 5 }

/-- A scripted run: each entry carries the key events of the frame and the
random samples available to a relocation in that frame. -/
def runTicks (g : GameState)
    (script : List (List (Int × Int) × List (Int × Int))) : GameState :=
  script.foldl (fun st e => tick st e.1 e.2) g

/-! Helper lemmas shared by several results. -/

/-- A list whose optional last element is some t contains t. -/
theorem getLast?_mem_of_eq_some {t : Int × Int} {l : List (Int × Int)}
    (h : l.getLast? = some t) : t ∈ l := by
  obtain ⟨hne, ht⟩ := List.mem_getLast?_eq_getLast h
  rw [ht]
  exact List.getLast_mem hne

/-- On a growing tick (body strictly shorter than the target length) a
non-colliding move prepends the head and keeps the tail. -/
theorem move_growing (s : Snake) (h1 : s.new_head ∉ s.positions.dropLast)
    (h2 : s.positions.length < s.length) :
    s.move = { s with
      last := s.positions.getLast?
      positions := s.new_head :: s.positions } := by
  unfold Snake.move
  rw [if_neg h1, if_neg (by simp; omega)]

/-- Claim C1: the spec requires that on a growing tick the new head landing
on the current tail is a self-collision.  The code excludes the tail from
the check unconditionally: in the state below the body is one cell short of
the target length (a growing tick), the new head equals the current tail,
yet move does not reset and instead produces a body containing the tail
cell twice. -/
theorem c1_eval :
    ((⟨5, [(360, 220), (380, 220), (380, 240), (360, 240)],
        (0, 1), none, some (340, 240)⟩ : Snake).positions.length <
      (⟨5, [(360, 220), (380, 220), (380, 240), (360, 240)],
        (0, 1), none, some (340, 240)⟩ : Snake).length) ∧
    (⟨5, [(360, 220), (380, 220), (380, 240), (360, 240)],
        (0, 1), none, some (340, 240)⟩ : Snake).new_head = (360, 240) ∧
    (⟨5, [(360, 220), (380, 220), (380, 240), (360, 240)],
        (0, 1), none, some (340, 240)⟩ : Snake).positions.getLast? =
      some (360, 240) ∧
    (⟨5, [(360, 220), (380, 220), (380, 240), (360, 240)],
        (0, 1), none, some (340, 240)⟩ : Snake).move ≠ Snake.reset ∧
    (⟨5, [(360, 220), (380, 220), (380, 240), (360, 240)],
        (0, 1), none, some (340, 240)⟩ : Snake).move.positions =
      [(360, 240), (360, 220), (380, 220), (380, 240), (360, 240)] := by
  decide

/-- Claim C2, counterexample: with initial random sample (16, 12) the apple
is created at the board center, exactly where the snake starts, so the food
does lie on the body right after game start. -/
theorem c2_counterexample :
    (initial (16, 12)).apple ∈ (initial (16, 12)).snake.positions := by
  decide

/-- Claim C4, failing run: a reachable six-tick game (three apples eaten
while heading right, one more after turning up, then a left and a down
turn) ends a completed tick with the cell (360, 240) occurring twice in the
body, so the no-duplicates invariant is violated by the code. -/
theorem c4_eval :
    (runTicks (initial (17, 12))
        [([], [(18, 12)]), ([], [(19, 12)]), ([], [(18, 11)]),
         ([UP], []), ([LEFT], [(0, 0)]), ([DOWN], [])]).snake.positions =
      [(360, 240), (360, 220), (380, 220), (380, 240), (360, 240)] ∧
    ¬ (runTicks (initial (17, 12))
        [([], [(18, 12)]), ([], [(19, 12)]), ([], [(18, 11)]),
         ([UP], []), ([LEFT], [(0, 0)]), ([DOWN], [])]).snake.positions.Nodup := by
  decide

/-- Claim C5: update_direction adopts the pending direction exactly when
one is queued and its negation differs from the current direction, leaves
the direction alone when the pending one is the exact opposite, and clears
the pending direction whenever one was set. -/
theorem c5 (s : Snake) :
    (s.next_direction = none → s.update_direction = s) ∧
    (∀ nd, s.next_direction = some nd →
      ((nd.1 * -1, nd.2 * -1) ≠ s.direction → s.update_direction.direction = nd) ∧
      ((nd.1 * -1, nd.2 * -1) = s.direction →
        s.update_direction.direction = s.direction) ∧
      s.update_direction.next_direction = none) := by
  constructor
  · intro h
    simp [Snake.update_direction, h]
  · intro nd h
    by_cases hop : (nd.1 * -1, nd.2 * -1) = s.direction
    · simp only [Snake.update_direction, h, ne_eq]
      rw [if_neg (not_not_intro hop)]
      exact ⟨fun hc => absurd hop hc, fun _ => rfl, rfl⟩
    · simp only [Snake.update_direction, h, ne_eq]
      rw [if_pos hop]
      exact ⟨fun _ => rfl, fun hc => absurd hc hop, rfl⟩

/-- Claim C5, witness: a snake heading right with UP queued turns up and
the queue is cleared. -/
theorem c5_witness :
    (Snake.update_direction
        ⟨1, [(320, 240)], (1, 0), some (0, -1), none⟩).direction = (0, -1) ∧
    (Snake.update_direction
        ⟨1, [(320, 240)], (1, 0), some (0, -1), none⟩).next_direction = none := by
  have h := c5 ⟨1, [(320, 240)], (1, 0), some (0, -1), none⟩
  exact ⟨((h.2 (0, -1) rfl).1) (by decide), (h.2 (0, -1) rfl).2.2⟩

/-- Claim C6: from a wellformed snake state (nonempty body no longer than
the target length), grow followed by one non-colliding move lengthens the
body by exactly one and keeps the previous tail cell in the body. -/
theorem c6 (s : Snake) (t : Int × Int)
    (h1 : s.positions.getLast? = some t)
    (h2 : s.positions.length ≤ s.length)
    (h3 : s.new_head ∉ s.positions.dropLast) :
    s.grow.move.positions.length = s.positions.length + 1 ∧
    t ∈ s.grow.move.positions := by
  have hm : s.grow.move = { s.grow with
      last := s.grow.positions.getLast?
      positions := s.grow.new_head :: s.grow.positions } :=
    move_growing s.grow h3 (by
      show s.positions.length < s.length + 1
      omega)
  rw [hm]
  refine ⟨rfl, ?_⟩
  exact List.mem_cons_of_mem _ (getLast?_mem_of_eq_some h1)

/-- Claim C6, witness: the freshly reset snake grows and advances right,
going from one to two segments while keeping the center cell. -/
theorem c6_witness :
    Snake.reset.grow.move.positions.length = Snake.reset.positions.length + 1 ∧
    (320, 240) ∈ Snake.reset.grow.move.positions := by
  exact c6 Snake.reset (320, 240) (by decide) (by decide) (by decide)

/-- Claim C7: for a snake whose head is an on-grid cell, the new head
computed by move is exactly the cell arithmetic modulo the grid dimensions
scaled back to pixels, and both the cell indices and the pixel coordinates
land inside the board. -/
theorem c7 (s : Snake) (cx cy : Int) (rest : List (Int × Int))
    (h : s.positions = (cx * GRID_SIZE, cy * GRID_SIZE) :: rest) :
    s.new_head =
      ((cx + s.direction.1) % GRID_WIDTH * GRID_SIZE,
       (cy + s.direction.2) % GRID_HEIGHT * GRID_SIZE) ∧
    0 ≤ (cx + s.direction.1) % GRID_WIDTH ∧
    (cx + s.direction.1) % GRID_WIDTH < GRID_WIDTH ∧
    0 ≤ (cy + s.direction.2) % GRID_HEIGHT ∧
    (cy + s.direction.2) % GRID_HEIGHT < GRID_HEIGHT ∧
    0 ≤ s.new_head.1 ∧ s.new_head.1 < SCREEN_WIDTH ∧
    0 ≤ s.new_head.2 ∧ s.new_head.2 < SCREEN_HEIGHT := by
  have hh : s.get_head_position = (cx * GRID_SIZE, cy * GRID_SIZE) := by
    rw [Snake.get_head_position, h]
    rfl
  unfold Snake.new_head
  rw [hh]
  simp only [SCREEN_WIDTH, SCREEN_HEIGHT, GRID_SIZE, GRID_WIDTH, GRID_HEIGHT,
    Prod.mk.injEq]
  norm_num
  refine ⟨⟨?_, ?_⟩, ?_, ?_, ?_, ?_, ?_, ?_, ?_, ?_⟩ <;> omega

/-- Claim C7, witness: the reset snake heading right from the center moves
to cell (17, 12), pixel (340, 240), inside the board. -/
theorem c7_witness :
    Snake.reset.new_head =
      ((16 + Snake.reset.direction.1) % GRID_WIDTH * GRID_SIZE,
       (12 + Snake.reset.direction.2) % GRID_HEIGHT * GRID_SIZE) ∧
    0 ≤ Snake.reset.new_head.1 ∧ Snake.reset.new_head.1 < SCREEN_WIDTH := by
  have h := c7 Snake.reset 16 12 [] (by decide)
  exact ⟨h.1, h.2.2.2.2.2.1, h.2.2.2.2.2.2.1⟩

/-- Claim C9: queueing UP then DOWN before one commit leaves only DOWN
pending; the commit clears the queue, keeps the direction when it was UP
(DOWN being its exact opposite) and otherwise turns the snake DOWN. -/
theorem c9 (s : Snake) :
    (handle_keys s [UP, DOWN]).next_direction = some DOWN ∧
    (handle_keys s [UP, DOWN]).update_direction.next_direction = none ∧
    (s.direction = UP →
      (handle_keys s [UP, DOWN]).update_direction.direction = s.direction) ∧
    (s.direction ≠ UP →
      (handle_keys s [UP, DOWN]).update_direction.direction = DOWN) := by
  have hk : handle_keys s [UP, DOWN] = { s with next_direction := some DOWN } :=
    rfl
  have hpair : (DOWN.1 * -1, DOWN.2 * -1) = UP := by decide
  rw [hk]
  have h := c5 { s with next_direction := some DOWN }
  have h2 := h.2 DOWN rfl
  refine ⟨rfl, h2.2.2, fun hd => ?_, fun hd => ?_⟩
  · exact h2.2.1 (by rw [hpair, hd])
  · exact h2.1 (by rw [hpair]; exact fun hc => hd hc.symm)

/-- The relocation loop leaves the body whenever a sample off the body is
available in the stream. -/
theorem relocate_not_mem (samples body : List (Int × Int)) (fb : Int × Int)
    (h : ∃ q ∈ samples, randomize_position q.1 q.2 ∉ body) :
    relocate samples body fb ∉ body := by
  induction samples with
  | nil =>
      obtain ⟨q, hq, -⟩ := h
      exact absurd hq (List.not_mem_nil q)
  | cons q rest ih =>
      unfold relocate
      by_cases hm : randomize_position q.1 q.2 ∈ body
      · rw [if_pos hm]
        apply ih
        obtain ⟨p, hp, hnp⟩ := h
        rcases List.mem_cons.mp hp with heq | hr
        · subst heq
          exact absurd hm hnp
        · exact ⟨p, hr, hnp⟩
      · rw [if_neg hm]
        exact hm

/-- Claim C2, amended: on every relocation triggered by food consumption
the new apple position is off the snake body (whenever the random stream
offers an off-body sample, which holds with probability one); the game
start placement and a collision reset carry no such guarantee. -/
theorem c2_amended (g : GameState) (events samples : List (Int × Int))
    (h1 : (step_snake g.snake events).get_head_position = g.apple)
    (h2 : ∃ q ∈ samples,
        randomize_position q.1 q.2 ∉ (step_snake g.snake events).positions) :
    (tick g events samples).apple ∉ (tick g events samples).snake.positions := by
  simp only [tick]
  rw [if_pos h1]
  show relocate samples (step_snake g.snake events).grow.positions g.apple ∉
    (step_snake g.snake events).grow.positions
  exact relocate_not_mem _ _ _ h2

/-- Claim C2, amended, witness: a reset snake one step left of the apple
eats it and the apple relocates to (0, 0), off the body. -/
theorem c2_amended_witness :
    (tick ⟨Snake.reset, (340, 240), 5⟩ [] [(0, 0)]).apple ∉
      (tick ⟨Snake.reset, (340, 240), 5⟩ [] [(0, 0)]).snake.positions := by
  exact c2_amended ⟨Snake.reset, (340, 240), 5⟩ [] [(0, 0)] (by decide)
    ⟨(0, 0), by decide, by decide⟩

/-- Claim C3, counterexample: a reachable eight-tick game whose eighth tick
is a self-collision (the new head lands on a non-tail body cell) while the
apple sits at the board center.  The claim demands a freshly reset snake
with target length 1 and no consumption on that tick; the code instead
consumes on the same tick, so the target length ends at 2. -/
theorem c3_counterexample :
    (handle_keys (runTicks (initial (17, 12))
        [([], [(18, 12)]), ([], [(19, 12)]), ([], [(20, 12)]), ([], [(16, 12)]),
         ([], []), ([UP], []), ([LEFT], [])]).snake [DOWN]).update_direction.new_head ∈
      (handle_keys (runTicks (initial (17, 12))
        [([], [(18, 12)]), ([], [(19, 12)]), ([], [(20, 12)]), ([], [(16, 12)]),
         ([], []), ([UP], []), ([LEFT], [])]).snake [DOWN]).update_direction.positions.dropLast ∧
    (runTicks (initial (17, 12))
        [([], [(18, 12)]), ([], [(19, 12)]), ([], [(20, 12)]), ([], [(16, 12)]),
         ([], []), ([UP], []), ([LEFT], []), ([DOWN], [(0, 0)])]).snake.length = 2 ∧
    (runTicks (initial (17, 12))
        [([], [(18, 12)]), ([], [(19, 12)]), ([], [(20, 12)]), ([], [(16, 12)]),
         ([], []), ([UP], []), ([LEFT], []), ([DOWN], [(0, 0)])]).snake.positions =
      [(320, 240)] := by
  decide

/-- Claim C3, amended: a self-collision tick resets the snake in place but
never relocates the food; when the food is away from the board center the
tick changes nothing else, and when the food sits at the center the
consumption step still runs on the same tick, leaving target length 2 and
a raised speed. -/
theorem c3_amended (g : GameState) (events samples : List (Int × Int))
    (h : ((handle_keys g.snake events).update_direction).new_head ∈
         ((handle_keys g.snake events).update_direction).positions.dropLast) :
    (g.apple ≠ Snake.reset.get_head_position →
      tick g events samples = ⟨Snake.reset, g.apple, g.base_speed⟩) ∧
    (g.apple = Snake.reset.get_head_position →
      (tick g events samples).snake.length = 2 ∧
      (tick g events samples).snake.positions = Snake.reset.positions ∧
      (tick g events samples).base_speed = g.base_speed + 0.5) := by
  have hs : step_snake g.snake events = Snake.reset := by
    unfold step_snake Snake.move
    rw [if_pos h]
  constructor
  · intro hne
    simp only [tick]
    rw [hs]
    rw [if_neg (fun hc => hne hc.symm)]
  · intro he
    simp only [tick]
    rw [hs]
    rw [if_pos he.symm]
    refine ⟨rfl, rfl, ?_⟩
    show (if Snake.reset.grow.length % 1 = 0
        then g.base_speed + 0.5 else g.base_speed) = g.base_speed + 0.5
    rw [if_pos (Nat.mod_one _)]

/-- Claim C3, amended, witness: a five-segment snake turning into its own
flank resets, and with the apple away from the center the tick leaves the
apple and speed untouched. -/
theorem c3_amended_witness :
    tick ⟨⟨5, [(400, 220), (420, 220), (420, 240), (400, 240), (380, 240)],
        (0, 1), none, none⟩, (0, 0), 7⟩ [] [] =
      ⟨Snake.reset, (0, 0), 7⟩ := by
  exact (c3_amended ⟨⟨5, [(400, 220), (420, 220), (420, 240), (400, 240),
    (380, 240)], (0, 1), none, none⟩, (0, 0), 7⟩ [] [] (by decide)).1 (by decide)

/-- One tick never lowers the speed. -/
theorem tick_speed_le (g : GameState) (events samples : List (Int × Int)) :
    g.base_speed ≤ (tick g events samples).base_speed := by
  simp only [tick]
  by_cases hc : (step_snake g.snake events).get_head_position = g.apple
  · rw [if_pos hc]
    show g.base_speed ≤
      (if (step_snake g.snake events).grow.length % 1 = 0
        then g.base_speed + 0.5 else g.base_speed)
    rw [if_pos (Nat.mod_one _)]
    linarith
  · rw [if_neg hc]

/-- A whole scripted run never lowers the speed. -/
theorem runTicks_speed_le (g : GameState)
    (script : List (List (Int × Int) × List (Int × Int))) :
    g.base_speed ≤ (runTicks g script).base_speed := by
  induction script generalizing g with
  | nil => exact le_refl _
  | cons e rest ih =>
      have h1 : runTicks g (e :: rest) = runTicks (tick g e.1 e.2) rest := rfl
      rw [h1]
      exact le_trans (tick_speed_le g e.1 e.2) (ih (tick g e.1 e.2))

/-- Claim C8: the speed is non-decreasing over one tick and over any
scripted run, and rises by exactly 0.5 on every tick whose moved head sits
on the apple (the Ate outcome) - unconditionally, since the periodic guard
length mod 1 == 0 is always true. -/
theorem c8 (g : GameState) (events samples : List (Int × Int))
    (script : List (List (Int × Int) × List (Int × Int))) :
    g.base_speed ≤ (tick g events samples).base_speed ∧
    ((step_snake g.snake events).get_head_position = g.apple →
      (tick g events samples).base_speed = g.base_speed + 0.5) ∧
    g.base_speed ≤ (runTicks g script).base_speed := by
  refine ⟨tick_speed_le g events samples, fun h => ?_, runTicks_speed_le g script⟩
  simp only [tick]
  rw [if_pos h]
  show (if (step_snake g.snake events).grow.length % 1 = 0
      then g.base_speed + 0.5 else g.base_speed) = g.base_speed + 0.5
  rw [if_pos (Nat.mod_one _)]

/-- Claim C8, witness: a reset snake one step left of the apple eats it and
the speed rises from 5 to 5.5. -/
theorem c8_witness :
    (tick ⟨Snake.reset, (340, 240), 5⟩ [] [(0, 0)]).base_speed = 5 + 0.5 := by
  exact (c8 ⟨Snake.reset, (340, 240), 5⟩ [] [(0, 0)] []).2.1 (by decide)

/-! Grid alignment invariant. -/

/-- A pixel position that lies on the 32 by 24 cell grid: both coordinates
are non-negative multiples of GRID_SIZE below the screen dimensions. -/
def valid_cell (p : Int × Int) : Prop :=
  0 ≤ p.1 ∧ p.1 < SCREEN_WIDTH ∧ p.1 % GRID_SIZE = 0 ∧
  0 ≤ p.2 ∧ p.2 < SCREEN_HEIGHT ∧ p.2 % GRID_SIZE = 0

instance (p : Int × Int) : Decidable (valid_cell p) :=
  inferInstanceAs (Decidable (0 ≤ p.1 ∧ p.1 < SCREEN_WIDTH ∧
    p.1 % GRID_SIZE = 0 ∧ 0 ≤ p.2 ∧ p.2 < SCREEN_HEIGHT ∧ p.2 % GRID_SIZE = 0))

/-- One of the four arrow directions of the source. -/
def valid_dir (d : Int × Int) : Prop :=
  d = UP ∨ d = DOWN ∨ d = LEFT ∨ d = RIGHT

instance (d : Int × Int) : Decidable (valid_dir d) :=
  inferInstanceAs (Decidable (d = UP ∨ d = DOWN ∨ d = LEFT ∨ d = RIGHT))

/-- A queued direction, when present, is one of the four arrows. -/
def valid_pending : Option (Int × Int) → Prop
  | none => True
  | some d => valid_dir d

instance : (o : Option (Int × Int)) → Decidable (valid_pending o)
  | none => isTrue trivial
  | some d => inferInstanceAs (Decidable (valid_dir d))

/-- Wellformedness of a snake state: nonempty body of on-grid cells, an
arrow direction and an arrow pending direction if any. -/
def Snake.WF (s : Snake) : Prop :=
  s.positions ≠ [] ∧ (∀ p ∈ s.positions, valid_cell p) ∧
  valid_dir s.direction ∧ valid_pending s.next_direction

instance (s : Snake) : Decidable s.WF :=
  inferInstanceAs (Decidable (s.positions ≠ [] ∧
    (∀ p ∈ s.positions, valid_cell p) ∧
    valid_dir s.direction ∧ valid_pending s.next_direction))

/-- Wellformedness of a game state: wellformed snake and on-grid apple. -/
def GameState.WF (g : GameState) : Prop :=
  g.snake.WF ∧ valid_cell g.apple

instance (g : GameState) : Decidable g.WF :=
  inferInstanceAs (Decidable (g.snake.WF ∧ valid_cell g.apple))

/-- A legal random.randint result pair for the apple. -/
def valid_sample (q : Int × Int) : Prop :=
  0 ≤ q.1 ∧ q.1 < GRID_WIDTH ∧ 0 ≤ q.2 ∧ q.2 < GRID_HEIGHT

instance (q : Int × Int) : Decidable (valid_sample q) :=
  inferInstanceAs (Decidable (0 ≤ q.1 ∧ q.1 < GRID_WIDTH ∧
    0 ≤ q.2 ∧ q.2 < GRID_HEIGHT))

/-- A legal frame of a script: arrow-key events and legal random pairs. -/
def valid_frame (e : List (Int × Int) × List (Int × Int)) : Prop :=
  (∀ d ∈ e.1, valid_dir d) ∧ (∀ q ∈ e.2, valid_sample q)

instance (e : List (Int × Int) × List (Int × Int)) : Decidable (valid_frame e) :=
  inferInstanceAs (Decidable ((∀ d ∈ e.1, valid_dir d) ∧ (∀ q ∈ e.2, valid_sample q)))

/-- A legal script: every frame is legal. -/
def valid_script (script : List (List (Int × Int) × List (Int × Int))) : Prop :=
  ∀ e ∈ script, valid_frame e

instance (script : List (List (Int × Int) × List (Int × Int))) :
    Decidable (valid_script script) :=
  inferInstanceAs (Decidable (∀ e ∈ script, valid_frame e))

/-- The reset snake is wellformed. -/
theorem reset_WF : Snake.reset.WF := by decide

/-- handle_keys keeps wellformedness when the events are arrow keys. -/
theorem handle_keys_WF (events : List (Int × Int)) :
    ∀ s : Snake, s.WF → (∀ d ∈ events, valid_dir d) → (handle_keys s events).WF := by
  induction events with
  | nil => exact fun s hs _ => hs
  | cons d rest ih =>
      intro s hs he
      have h1 : handle_keys s (d :: rest) =
          handle_keys { s with next_direction := some d } rest := rfl
      rw [h1]
      refine ih _ ?_ (fun d2 hd2 => he d2 (List.mem_cons_of_mem _ hd2))
      obtain ⟨w1, w2, w3, -⟩ := hs
      exact ⟨w1, w2, w3, he d (List.mem_cons_self d rest)⟩

/-- update_direction keeps wellformedness. -/
theorem update_direction_WF (s : Snake) (hs : s.WF) : s.update_direction.WF := by
  obtain ⟨w1, w2, w3, w4⟩ := hs
  cases hnd : s.next_direction with
  | none =>
      have h1 : s.update_direction = s := by
        unfold Snake.update_direction
        rw [hnd]
      rw [h1]
      exact ⟨w1, w2, w3, w4⟩
  | some nd =>
      have hvd : valid_dir nd := by rw [hnd] at w4; exact w4
      by_cases hop : (nd.1 * -1, nd.2 * -1) ≠ s.direction
      · have h1 : s.update_direction =
            { s with direction := nd, next_direction := none } := by
          unfold Snake.update_direction
          rw [hnd]
          exact if_pos hop
        rw [h1]
        exact ⟨w1, w2, hvd, trivial⟩
      · have h1 : s.update_direction = { s with next_direction := none } := by
          unfold Snake.update_direction
          rw [hnd]
          exact if_neg hop
        rw [h1]
        exact ⟨w1, w2, w3, trivial⟩

/-- The cell a wellformed snake moves into is on the grid. -/
theorem new_head_valid (s : Snake) (hs : s.WF) : valid_cell s.new_head := by
  obtain ⟨w1, w2, w3, -⟩ := hs
  cases hpos : s.positions with
  | nil => exact absurd hpos w1
  | cons p rest =>
      have hp : valid_cell p := w2 p (by rw [hpos]; exact List.mem_cons_self p rest)
      have hh : s.get_head_position = p := by
        rw [Snake.get_head_position, hpos]
        rfl
      obtain ⟨a1, a2, a3, a4, a5, a6⟩ := hp
      unfold Snake.new_head valid_cell
      rw [hh]
      rcases w3 with h | h | h | h <;> rw [h] <;>
        simp only [UP, DOWN, LEFT, RIGHT, SCREEN_WIDTH, SCREEN_HEIGHT, GRID_SIZE] at * <;>
        refine ⟨?_, ?_, ?_, ?_, ?_, ?_⟩ <;> omega

/-- move keeps wellformedness. -/
theorem move_WF (s : Snake) (hs : s.WF) : s.move.WF := by
  unfold Snake.move
  split
  · exact reset_WF
  · obtain ⟨w1, w2, w3, w4⟩ := hs
    have hnh := new_head_valid s ⟨w1, w2, w3, w4⟩
    have hmem : ∀ p ∈ (if s.length < (s.new_head :: s.positions).length
        then (s.new_head :: s.positions).dropLast
        else s.new_head :: s.positions), p = s.new_head ∨ p ∈ s.positions := by
      intro p hp
      split at hp
      · exact List.mem_cons.mp (List.mem_of_mem_dropLast hp)
      · exact List.mem_cons.mp hp
    have hne2 : (if s.length < (s.new_head :: s.positions).length
        then (s.new_head :: s.positions).dropLast
        else s.new_head :: s.positions) ≠ [] := by
      split
      · intro h0
        have hlen := congrArg List.length h0
        rw [List.length_dropLast] at hlen
        simp at hlen
        exact w1 hlen
      · exact List.cons_ne_nil _ _
    refine ⟨hne2, ?_, w3, w4⟩
    intro p hp
    rcases hmem p hp with heq | hmem2
    · rw [heq]
      exact hnh
    · exact w2 p hmem2

/-- The relocation result is on the grid when the samples are legal and the
fallback is on the grid. -/
theorem relocate_valid (samples : List (Int × Int)) (body : List (Int × Int))
    (fb : Int × Int) (hs : ∀ q ∈ samples, valid_sample q) (hf : valid_cell fb) :
    valid_cell (relocate samples body fb) := by
  induction samples with
  | nil => exact hf
  | cons q rest ih =>
      unfold relocate
      split
      · exact ih (fun p hp => hs p (List.mem_cons_of_mem _ hp))
      · obtain ⟨b1, b2, b3, b4⟩ := hs q (List.mem_cons_self q rest)
        unfold valid_cell randomize_position
        simp only [GRID_WIDTH, GRID_HEIGHT, SCREEN_WIDTH, SCREEN_HEIGHT,
          GRID_SIZE] at *
        refine ⟨?_, ?_, ?_, ?_, ?_, ?_⟩ <;> omega

/-- One tick keeps game wellformedness for arrow events and legal samples. -/
theorem tick_WF (g : GameState) (events samples : List (Int × Int))
    (hg : g.WF) (he : ∀ d ∈ events, valid_dir d)
    (hsmp : ∀ q ∈ samples, valid_sample q) : (tick g events samples).WF := by
  obtain ⟨hsn, hap⟩ := hg
  have hstep : (step_snake g.snake events).WF :=
    move_WF _ (update_direction_WF _ (handle_keys_WF events g.snake hsn he))
  simp only [tick]
  split
  · obtain ⟨w1, w2, w3, w4⟩ := hstep
    exact ⟨⟨w1, w2, w3, w4⟩, relocate_valid _ _ _ hsmp hap⟩
  · exact ⟨hstep, hap⟩

/-- The initial game state is wellformed for a legal initial sample. -/
theorem initial_WF (g0 : Int × Int) (h : valid_sample g0) : (initial g0).WF := by
  refine ⟨reset_WF, ?_⟩
  show valid_cell (randomize_position g0.1 g0.2)
  obtain ⟨b1, b2, b3, b4⟩ := h
  unfold valid_cell randomize_position
  simp only [GRID_WIDTH, GRID_HEIGHT, SCREEN_WIDTH, SCREEN_HEIGHT,
    GRID_SIZE] at *
  refine ⟨?_, ?_, ?_, ?_, ?_, ?_⟩ <;> omega

/-- A legal scripted run keeps game wellformedness. -/
theorem runTicks_WF (script : List (List (Int × Int) × List (Int × Int))) :
    ∀ g : GameState, g.WF → valid_script script → (runTicks g script).WF := by
  induction script with
  | nil => exact fun g hg _ => hg
  | cons e rest ih =>
      intro g hg hs
      have h1 : runTicks g (e :: rest) = runTicks (tick g e.1 e.2) rest := rfl
      rw [h1]
      have hef := hs e (List.mem_cons_self e rest)
      exact ih (tick g e.1 e.2) (tick_WF g e.1 e.2 hg hef.1 hef.2)
        (fun x hx => hs x (List.mem_cons_of_mem _ hx))

/-- Claim C10: in every state reachable from game start by legal frames,
every body cell and the apple position are non-negative multiples of
GRID_SIZE below the screen dimensions, so all positions stay aligned to
the 32 by 24 cell grid. -/
theorem c10 (g0 : Int × Int)
    (script : List (List (Int × Int) × List (Int × Int)))
    (h0 : valid_sample g0) (hs : valid_script script) :
    (∀ p ∈ (runTicks (initial g0) script).snake.positions, valid_cell p) ∧
    valid_cell (runTicks (initial g0) script).apple := by
  have h := runTicks_WF script (initial g0) (initial_WF g0 h0) hs
  exact ⟨h.1.2.1, h.2⟩

/-- Claim C10, witness: the empty run from initial sample (0, 0) has an
on-grid apple and an on-grid center cell in the body. -/
theorem c10_witness :
    valid_cell (runTicks (initial (0, 0)) []).apple ∧ valid_cell (320, 240) := by
  have h := c10 (0, 0) [] (by decide) (by decide)
  exact ⟨h.2, h.1 (320, 240) (by decide)⟩

/-- Claim C9, witness: the reset snake (heading right) with UP then DOWN
queued in one frame ends up with DOWN pending, and the commit turns it
down since DOWN is not the reverse of RIGHT. -/
theorem c9_witness :
    (handle_keys Snake.reset [UP, DOWN]).next_direction = some DOWN ∧
    (handle_keys Snake.reset [UP, DOWN]).update_direction.direction = DOWN := by
  have h := c9 Snake.reset
  exact ⟨h.1, h.2.2.2 (by decide)⟩
